import Mathlib

/-!
Verification development for the moobi disclosure-scraping scripts.

Each Python source file is shallowly embedded: pure helper functions become
Lean functions, dictionary records become association lists with defaulting
lookup, logging becomes an explicit list of emitted events, and the bounded
retry loops become a recursive function over the remaining attempt budget.
-/

/-- A loosely-keyed source record: an ordered mapping of source-specific
string keys to string values (a Python dict observed through `item.get`). -/
abbrev FieldRecord := List (String × String)

/-- `item.get(key, '')`: lookup with the empty string as default. -/
def dictGet (item : FieldRecord) (key : String) : String :=
  match item.lookup key with
  | some v => v
  | none => ""

/-! ## Retry loop (board_meeting.py lines 116-145, block_deals.py lines 104-125)

Both fetch loops are `for attempt in range(3)` bodies that invoke the network
operation, break on the first success, and otherwise sleep two seconds when
`attempt < 2`.  The network operation is abstracted as a function from the
attempt index to an optional payload. -/

/-- Maximum number of attempts: `range(3)` in both fetch loops. -/
def maxAttempts : Nat := 3

/-- The fixed inter-attempt delay in seconds: `asyncio.sleep(2)`. -/
def retryDelaySeconds : Nat := 2

/-- Observable outcome of one run of a fetch loop: the payload (if any
attempt succeeded), how many times the operation was invoked, and the
sequence of sleep durations performed between attempts. -/
structure RetryResult (α : Type) where
  result : Option α
  attemptsMade : Nat
  sleeps : List Nat
deriving DecidableEq

/-- One `for attempt in range(...)` execution starting at index `attempt`
with `remaining` iterations left.  On success the loop breaks at once; on
failure it sleeps `retryDelaySeconds` when `attempt < 2` and continues. -/
def retryLoopFrom {α : Type} (op : Nat → Option α) : Nat → Nat → RetryResult α
  | 0, _ => ⟨none, 0, []⟩
  | remaining + 1, attempt =>
    match op attempt with
    | some v => ⟨some v, 1, []⟩
    | none =>
      if attempt < 2 then
        let rest := retryLoopFrom op remaining (attempt + 1)
        ⟨rest.result, rest.attemptsMade + 1, retryDelaySeconds :: rest.sleeps⟩
      else
        ⟨none, 1, []⟩

/-- The whole fetch loop: `for attempt in range(3)`. -/
def fetch_with_retry {α : Type} (op : Nat → Option α) : RetryResult α :=
  retryLoopFrom op maxAttempts 0

theorem fetch_with_retry_attempts_le {α : Type} (op : Nat → Option α) :
    (fetch_with_retry op).attemptsMade ≤ maxAttempts := by
  rcases h0 : op 0 with _ | v0 <;> rcases h1 : op 1 with _ | v1 <;>
    rcases h2 : op 2 with _ | v2 <;>
    simp [fetch_with_retry, retryLoopFrom, maxAttempts, h0, h1, h2]

theorem fetch_with_retry_none_attempts {α : Type} (op : Nat → Option α)
    (h : (fetch_with_retry op).result = none) :
    (fetch_with_retry op).attemptsMade = maxAttempts := by
  rcases h0 : op 0 with _ | v0 <;> rcases h1 : op 1 with _ | v1 <;>
    rcases h2 : op 2 with _ | v2 <;>
    simp_all [fetch_with_retry, retryLoopFrom, maxAttempts]

theorem fetch_with_retry_sleeps {α : Type} (op : Nat → Option α) :
    (fetch_with_retry op).sleeps =
      List.replicate ((fetch_with_retry op).attemptsMade - 1) retryDelaySeconds := by
  rcases h0 : op 0 with _ | v0 <;> rcases h1 : op 1 with _ | v1 <;>
    rcases h2 : op 2 with _ | v2 <;>
    simp [fetch_with_retry, retryLoopFrom, h0, h1, h2, List.replicate]

theorem fetch_with_retry_short_circuit {α : Type} (op : Nat → Option α)
    (k : Nat) (v : α) (hk : k < maxAttempts) (hs : op k = some v)
    (hmin : ∀ j, j < k → op j = none) :
    (fetch_with_retry op).result = some v ∧
      (fetch_with_retry op).attemptsMade = k + 1 := by
  have hk3 : k < 3 := hk
  interval_cases k
  · simp [fetch_with_retry, retryLoopFrom, hs]
  · have h0 := hmin 0 (by omega)
    simp [fetch_with_retry, retryLoopFrom, h0, hs]
  · have h0 := hmin 0 (by omega)
    have h1 := hmin 1 (by omega)
    simp [fetch_with_retry, retryLoopFrom, h0, h1, hs]

/-- C1: every fetch loop invokes the underlying operation at most 3 times
before failure is signaled; a success on attempt k ≤ 3 short-circuits the
remaining attempts (no further invocation); and a fixed 2-second delay
separates consecutive attempts. -/
theorem c1_fetch_retry_contract {α : Type} (op : Nat → Option α) :
    (fetch_with_retry op).attemptsMade ≤ maxAttempts ∧
    ((fetch_with_retry op).result = none →
      (fetch_with_retry op).attemptsMade = maxAttempts) ∧
    (fetch_with_retry op).sleeps =
      List.replicate ((fetch_with_retry op).attemptsMade - 1) retryDelaySeconds ∧
    (∀ k v, k < maxAttempts → op k = some v → (∀ j, j < k → op j = none) →
      (fetch_with_retry op).result = some v ∧
        (fetch_with_retry op).attemptsMade = k + 1) :=
  ⟨fetch_with_retry_attempts_le op, fetch_with_retry_none_attempts op,
   fetch_with_retry_sleeps op,
   fun k v hk hs hmin => fetch_with_retry_short_circuit op k v hk hs hmin⟩

/-- A concrete operation that fails on the first attempt and succeeds on the
second. -/
def c1SampleOp : Nat → Option Nat := fun n => if n = 1 then some 42 else none

/-- Witness for C1: on an operation succeeding at attempt index 1 the loop
returns that payload after exactly two invocations. -/
theorem c1_fetch_retry_contract_witness :
    (fetch_with_retry c1SampleOp).result = some 42 ∧
      (fetch_with_retry c1SampleOp).attemptsMade = 1 + 1 :=
  (c1_fetch_retry_contract c1SampleOp).2.2.2 1 42 (by decide) (by decide)
    (by decide)

/-! ## board_meeting.py: filter_board_meetings (lines 17-42) -/

/-- The canonical board-meeting record built in `filter_board_meetings`. -/
structure BMEntry where
  symbol : String
  companyName : String
  purpose : String
  boardMeetingDate : String
  description : String
  industry : String
  isin : String
  attachment : String
deriving DecidableEq

/-- The `entry = {...}` dictionary literal of `filter_board_meetings`:
field extraction with `item.get(key, '')`. -/
def mkBMEntry (item : FieldRecord) : BMEntry where
  symbol := dictGet item ("bm_symbol")
  companyName := dictGet item ("sm_name")
  purpose := dictGet item ("bm_purpose")
  boardMeetingDate := dictGet item ("bm_date")
  description := dictGet item ("bm_desc")
  industry := dictGet item ("sm_indusrty")
  isin := dictGet item ("sm_isin")
  attachment := dictGet item ("attachment")

/-- `not entry['symbol'] or not entry['companyName']` is false: both
mandatory fields are non-empty strings. -/
def bmItemValid (item : FieldRecord) : Bool :=
  !((mkBMEntry item).symbol == "" || (mkBMEntry item).companyName == "")

/-- Log events emitted by `filter_board_meetings`. -/
inductive BMLog where
  | skipInvalid (item : FieldRecord)
  | filteredInfo (valid : Nat) (total : Nat)
deriving DecidableEq

/-- The `for item in data` loop body of `filter_board_meetings`: skip (and
log) entries with an empty symbol or company name, append the rest. -/
def filterBMLoop : List FieldRecord → List BMEntry × List BMLog
  | [] => ([], [])
  | item :: rest =>
    let entry := mkBMEntry item
    let acc := filterBMLoop rest
    if entry.symbol == "" || entry.companyName == "" then
      (acc.1, BMLog.skipInvalid item :: acc.2)
    else
      (entry :: acc.1, acc.2)

/-- `filter_board_meetings(data)`: the loop followed by the final
`Filtered ... valid ... (out of ... total)` info log.  The returned pair is
the filtered list together with the log events emitted, in order. -/
def filter_board_meetings (data : List FieldRecord) :
    List BMEntry × List BMLog :=
  let acc := filterBMLoop data
  (acc.1, acc.2 ++ [BMLog.filteredInfo acc.1.length data.length])

theorem filterBMLoop_fst (data : List FieldRecord) :
    (filterBMLoop data).1 = (data.filter bmItemValid).map mkBMEntry := by
  induction data with
  | nil => rfl
  | cons item rest ih =>
    rcases h : ((mkBMEntry item).symbol == "" ||
        (mkBMEntry item).companyName == "") with _ | _ <;>
      simp [filterBMLoop, h, List.filter, bmItemValid, ih]

theorem filterBMLoop_snd (data : List FieldRecord) :
    (filterBMLoop data).2 =
      (data.filter (fun i => !(bmItemValid i))).map BMLog.skipInvalid := by
  induction data with
  | nil => rfl
  | cons item rest ih =>
    rcases h : ((mkBMEntry item).symbol == "" ||
        (mkBMEntry item).companyName == "") with _ | _ <;>
      simp [filterBMLoop, h, List.filter, bmItemValid, ih]

/-- C2: a canonical record appears in the normalizer's output list iff the
record's mandatory fields (symbol and company name) are present and
non-empty; every excluded record's drop is logged exactly once (one
`skipInvalid` event per excluded record, in order, before the final count
log); and every record in the output has non-empty symbol and companyName. -/
theorem c2_board_meeting_mandatory_fields (data : List FieldRecord) :
    (filter_board_meetings data).1 =
      (data.filter bmItemValid).map mkBMEntry ∧
    (filter_board_meetings data).2 =
      ((data.filter (fun i => !(bmItemValid i))).map BMLog.skipInvalid) ++
        [BMLog.filteredInfo (data.filter bmItemValid).length data.length] ∧
    (filter_board_meetings data).1.all
      (fun e => !(e.symbol == "") && !(e.companyName == "")) = true := by
  refine ⟨?_, ?_, ?_⟩
  · simpa [filter_board_meetings] using filterBMLoop_fst data
  · simp [filter_board_meetings, filterBMLoop_snd data, filterBMLoop_fst data]
  · simp only [filter_board_meetings, filterBMLoop_fst data, List.all_eq_true]
    intro e he
    simp only [List.mem_map, List.mem_filter] at he
    rcases he with ⟨i, ⟨_, hv⟩, rfl⟩
    simpa [bmItemValid] using hv

/-! ## block_deals.py: filter_block_deals (lines 17-35) -/

/-- The canonical block-deal record built in `filter_block_deals`. -/
structure BDEntry where
  symbol : String
  companyName : String
  clientName : String
  buySell : String
  quantity : String
  price : String
  date : String
deriving DecidableEq

/-- The dictionary literal appended for each item of `data.get('data', [])`:
field extraction with `item.get(key, '')`. -/
def mkBDEntry (item : FieldRecord) : BDEntry where
  symbol := dictGet item ("BD_SYMBOL")
  companyName := dictGet item ("BD_SCRIP_NAME")
  clientName := dictGet item ("BD_CLIENT_NAME")
  buySell := dictGet item ("BD_BUY_SELL")
  quantity := dictGet item ("BD_QTY_TRD")
  price := dictGet item ("BD_TP_WATP")
  date := dictGet item ("mTIMESTAMP")

/-- The parsed block-deals payload dictionary: its `data` key may be
absent (`data.get('data', [])` then defaults to the empty list). -/
structure BDPayload where
  data : Option (List FieldRecord)
deriving DecidableEq

/-- `data.get('data', [])`. -/
def bdDataList (p : BDPayload) : List FieldRecord := p.data.getD []

/-- The `for item in data.get('data', [])` loop of `filter_block_deals`:
every item is appended, none is skipped. -/
def filterBDLoop : List FieldRecord → List BDEntry
  | [] => []
  | item :: rest => mkBDEntry item :: filterBDLoop rest

/-- `filter_block_deals(data)`. -/
def filter_block_deals (p : BDPayload) : List BDEntry :=
  filterBDLoop (bdDataList p)

theorem filterBDLoop_eq_map (l : List FieldRecord) :
    filterBDLoop l = l.map mkBDEntry := by
  induction l with
  | nil => rfl
  | cons a t ih => simp [filterBDLoop, ih]

/-- C9: the block-deals normalizer returns exactly one output record per
entry of the payload's data list, in source order; a missing source key maps
to the empty string; no entry is dropped (no mandatory-field validation). -/
theorem c9_block_deals_normalizer (p : BDPayload) :
    filter_block_deals p = (bdDataList p).map mkBDEntry ∧
    (filter_block_deals p).length = (bdDataList p).length ∧
    (∀ i : Nat, (filter_block_deals p).get? i =
      ((bdDataList p).get? i).map mkBDEntry) ∧
    mkBDEntry [] = ⟨"", "", "", "", "", "", ""⟩ := by
  refine ⟨filterBDLoop_eq_map _, ?_, ?_, rfl⟩
  · simp [filter_block_deals, filterBDLoop_eq_map]
  · intro i
    simp [filter_block_deals, filterBDLoop_eq_map]

/-! ## Summary writers: board_meeting.py lines 44-65, block_deals.py lines 37-54 -/

/-- The 60-character rule and blank line written after the header and after
each record block: `"=" * 60 + "\n\n"`. -/
def ruleLine : String := String.mk (List.replicate 60 ('=')) ++ "\n\n"

/-- Header line of the board-meetings summary. -/
def bmSummaryHeader (from_date : String) (to_date : String) : String :=
  "NSE Board Meetings Summary (" ++ from_date ++ " to " ++ to_date ++ ")\n"

/-- One record block of the board-meetings summary. -/
def bmEntryBlock (item : BMEntry) : String :=
  "Symbol: " ++ item.symbol ++ "\n" ++
  "Company: " ++ item.companyName ++ "\n" ++
  "ISIN: " ++ item.isin ++ "\n" ++
  "Industry: " ++ item.industry ++ "\n" ++
  "Purpose: " ++ item.purpose ++ "\n" ++
  "Date: " ++ item.boardMeetingDate ++ "\n" ++
  "Description: " ++ item.description ++ "\n" ++
  "Attachment: " ++ item.attachment ++ "\n" ++
  ruleLine

/-- `save_text_summary` of board_meeting.py, as the text it writes. -/
def bm_save_text_summary (data : List BMEntry) (from_date : String)
    (to_date : String) : String :=
  bmSummaryHeader from_date to_date ++ ruleLine ++
    (if data.isEmpty then
      "No valid board meetings found for the specified date range.\n"
    else String.join (data.map bmEntryBlock))

/-- Header line of the block-deals summary. -/
def bdSummaryHeader (from_date : String) (to_date : String) : String :=
  "Block Deals Summary (" ++ from_date ++ " to " ++ to_date ++ ")\n"

/-- One record block of the block-deals summary. -/
def bdEntryBlock (item : BDEntry) : String :=
  "Symbol: " ++ item.symbol ++ "\n" ++
  "Company: " ++ item.companyName ++ "\n" ++
  "Client: " ++ item.clientName ++ "\n" ++
  "Transaction Type: " ++ item.buySell ++ "\n" ++
  "Quantity: " ++ item.quantity ++ "\n" ++
  "Price: Rs. " ++ item.price ++ "\n" ++
  "Date: " ++ item.date ++ "\n" ++
  ruleLine

/-- `save_text_summary` of block_deals.py, as the text it writes.  Note the
loop body simply runs zero times for an empty list: there is no empty-case
branch in this writer. -/
def bd_save_text_summary (data : List BDEntry) (from_date : String)
    (to_date : String) : String :=
  bdSummaryHeader from_date to_date ++ ruleLine ++
    String.join (data.map bdEntryBlock)

/-- `p` occurs at the head of `s`. -/
def charsHavePre : List Char → List Char → Bool
  | [], _ => true
  | _ :: _, [] => false
  | p :: ps, c :: cs => p == c && charsHavePre ps cs

/-- Naive substring occurrence over the underlying character lists. -/
def charsHaveSub (pat : List Char) : List Char → Bool
  | [] => charsHavePre pat []
  | c :: cs => charsHavePre pat (c :: cs) || charsHaveSub pat cs

/-- `pat` occurs as a contiguous substring of `s`. -/
def strContains (s : String) (pat : String) : Bool :=
  charsHaveSub pat.data s.data

/-- Counterexample for C4 as stated: the block-deals summary writer, given
an empty canonical list, produces a summary that does not contain the
no-data sentence (it does not even contain the sentence's fixed tail
"found for the specified date range."). -/
theorem c4_counterexample_block_deals_no_sentence :
    strContains (bd_save_text_summary [] ("16-04-2025") ("17-04-2025"))
      ("found for the specified date range.") = false := by decide

/-- C4 (amended): the board-meetings summary writer given an empty canonical
list produces exactly the header line, the rule, and the literal no-data
sentence, and never raises; the block-deals summary writer given an empty
list produces only the header line and the rule, with no no-data sentence,
and never raises. -/
theorem c4_empty_summary_amended (from_date : String) (to_date : String) :
    bm_save_text_summary [] from_date to_date =
      bmSummaryHeader from_date to_date ++ ruleLine ++
        "No valid board meetings found for the specified date range.\n" ∧
    strContains
      ("No valid board meetings found for the specified date range.\n")
      ("found for the specified date range.") = true ∧
    bd_save_text_summary [] from_date to_date =
      bdSummaryHeader from_date to_date ++ ruleLine := by
  refine ⟨rfl, by decide, ?_⟩
  simp [bd_save_text_summary, String.join]

/-! ## Run tails after the fetch loop

`fetch_board_meetings` (board_meeting.py lines 147-177) and
`fetch_block_deals` (block_deals.py lines 127-145) continue after the retry
loop with persistence and browser release.  File writes and the browser
close are modelled as emitted events; the Python local-variable discipline
is modelled exactly: in block_deals.py `filtered_data` is assigned only
inside the `if json_data:` branch, so the final
`return filtered_data, summary_filename` raises `UnboundLocalError` when the
fetch produced no payload. -/

/-- A Python exception surfacing from the embedded code. -/
inductive PyExn where
  | unboundLocal (varName : String)
  | keyError (key : String)
deriving DecidableEq

/-- Events of the board-meetings run tail. -/
inductive BMTailEvent where
  | savedRawJson
  | savedFilteredJson
  | savedSummary
  | browserClosed
deriving DecidableEq

/-- Python truthiness of the fetched board-meetings payload (`if json_data:`
on a JSON array): present and non-empty. -/
def bmTruthy : Option (List FieldRecord) → Bool
  | none => false
  | some d => !d.isEmpty

/-- Tail of `fetch_board_meetings` after the retry loop: `filtered_data`
is initialised to `[]`; on a truthy payload the raw JSON is saved, the
payload is filtered, the filtered JSON is saved only when non-empty, and the
summary is always written; otherwise only the empty summary is written; the
browser is closed on every path and the function returns normally. -/
def fetch_board_meetings_tail (json_data : Option (List FieldRecord))
    (summary_filename : String) :
    List BMTailEvent × (List BMEntry × String) :=
  if bmTruthy json_data then
    let filtered := (filter_board_meetings (json_data.getD [])).1
    let evs :=
      BMTailEvent.savedRawJson ::
        (if filtered.isEmpty then [BMTailEvent.savedSummary]
         else [BMTailEvent.savedFilteredJson, BMTailEvent.savedSummary])
    (evs ++ [BMTailEvent.browserClosed], (filtered, summary_filename))
  else
    ([BMTailEvent.savedSummary, BMTailEvent.browserClosed],
      ([], summary_filename))

/-- Events of the block-deals run tail. -/
inductive BDTailEvent where
  | savedOriginalJson
  | savedSummary
  | browserClosed
deriving DecidableEq

/-- Tail of `fetch_block_deals` after the retry loop: on a payload the
original JSON is saved, the payload is filtered and the summary is written
only when the filtered list is non-empty; the browser is closed on every
path; the final `return filtered_data, summary_filename` yields the pair on
the payload path and raises `UnboundLocalError` when no payload was fetched
(`filtered_data` was never assigned). -/
def fetch_block_deals_tail (json_data : Option BDPayload)
    (summary_filename : String) :
    List BDTailEvent × Except PyExn (List BDEntry × String) :=
  match json_data with
  | some d =>
    let filtered := filter_block_deals d
    let evs :=
      BDTailEvent.savedOriginalJson ::
        (if filtered.isEmpty then [] else [BDTailEvent.savedSummary])
    (evs ++ [BDTailEvent.browserClosed],
      Except.ok (filtered, summary_filename))
  | none =>
    ([BDTailEvent.browserClosed],
      Except.error (PyExn.unboundLocal ("filtered_data")))

/-- C3 (code divergence): on total fetch failure the block-deals run tail
raises `UnboundLocalError` instead of returning a failure value, although
the browser was already closed on that path; the board-meetings run tail,
whose `filtered_data` is initialised before the branch, returns normally on
the same failure. -/
theorem c3_block_deals_unbound_local :
    (fetch_block_deals_tail none ("block_deals_summary.txt")).2 =
      Except.error (PyExn.unboundLocal ("filtered_data")) ∧
    BDTailEvent.browserClosed ∈
      (fetch_block_deals_tail none ("block_deals_summary.txt")).1 ∧
    (fetch_board_meetings_tail none ("bm_summary.txt")).2 =
      ([], "bm_summary.txt") ∧
    BMTailEvent.browserClosed ∈
      (fetch_board_meetings_tail none ("bm_summary.txt")).1 := by
  refine ⟨rfl, by decide, rfl, by decide⟩

/-- A fetched board-meetings payload whose single entry lacks `bm_symbol`:
it survives the fetch (truthy payload) but yields zero canonical records. -/
def c5InvalidOnlyPayload : List FieldRecord := [[("sm_name", "Acme Industries")]]

/-- Counterexample for C5 as stated: this run reaches the normalize stage
(the payload is truthy, so `filter_board_meetings` runs) yet persists only
two artifacts — the raw payload and the summary — because the canonical
record list is empty and its file is written only when non-empty. -/
theorem c5_counterexample_two_artifacts :
    bmTruthy (some c5InvalidOnlyPayload) = true ∧
    (fetch_board_meetings_tail (some c5InvalidOnlyPayload)
        ("board_meetings_summary.txt")).1 =
      [BMTailEvent.savedRawJson, BMTailEvent.savedSummary,
        BMTailEvent.browserClosed] ∧
    BMTailEvent.savedFilteredJson ∉
      (fetch_board_meetings_tail (some c5InvalidOnlyPayload)
        ("board_meetings_summary.txt")).1 := by
  refine ⟨rfl, by decide, by decide⟩

/-- C5 (amended): a board-meetings run that reaches the normalize stage
persists the raw payload and the summary, and persists the canonical record
list iff at least one canonical record exists; a block-deals run that
reaches the normalize stage persists the raw payload, persists the summary
iff at least one record exists, writes no separate canonical artifact, and
closes the browser. -/
theorem c5_persist_amended (json_data : Option (List FieldRecord))
    (fn : String) (h : bmTruthy json_data = true)
    (p : BDPayload) (fn2 : String) :
    (BMTailEvent.savedRawJson ∈ (fetch_board_meetings_tail json_data fn).1 ∧
     BMTailEvent.savedSummary ∈ (fetch_board_meetings_tail json_data fn).1 ∧
     (BMTailEvent.savedFilteredJson ∈
         (fetch_board_meetings_tail json_data fn).1 ↔
       (filter_board_meetings (json_data.getD [])).1 ≠ [])) ∧
    (BDTailEvent.savedOriginalJson ∈ (fetch_block_deals_tail (some p) fn2).1 ∧
     (BDTailEvent.savedSummary ∈ (fetch_block_deals_tail (some p) fn2).1 ↔
       filter_block_deals p ≠ []) ∧
     BDTailEvent.browserClosed ∈ (fetch_block_deals_tail (some p) fn2).1) := by
  constructor
  · unfold fetch_board_meetings_tail
    rw [h]
    simp only [if_true]
    rcases hf : (filter_board_meetings (json_data.getD [])).1 with _ | ⟨e, es⟩ <;>
      simp [hf]
  · unfold fetch_block_deals_tail
    rcases hf : filter_block_deals p with _ | ⟨e, es⟩ <;> simp [hf]

/-- A board-meetings payload with one valid entry. -/
def c5ValidPayload : List FieldRecord :=
  [[("bm_symbol", "ACME"), ("sm_name", "Acme Industries")]]

/-- A block-deals payload with one entry. -/
def c5BDPayload : BDPayload := ⟨some [[("BD_SYMBOL", "ACME")]]⟩

/-- Witness for C5 (amended) at a concrete run with one valid record in
each feed. -/
theorem c5_persist_amended_witness :
    bmTruthy (some c5ValidPayload) = true ∧
    ((BMTailEvent.savedRawJson ∈
        (fetch_board_meetings_tail (some c5ValidPayload) ("bm.txt")).1 ∧
      BMTailEvent.savedSummary ∈
        (fetch_board_meetings_tail (some c5ValidPayload) ("bm.txt")).1 ∧
      (BMTailEvent.savedFilteredJson ∈
          (fetch_board_meetings_tail (some c5ValidPayload) ("bm.txt")).1 ↔
        (filter_board_meetings ((some c5ValidPayload).getD [])).1 ≠ [])) ∧
     (BDTailEvent.savedOriginalJson ∈
        (fetch_block_deals_tail (some c5BDPayload) ("bd.txt")).1 ∧
      (BDTailEvent.savedSummary ∈
          (fetch_block_deals_tail (some c5BDPayload) ("bd.txt")).1 ↔
        filter_block_deals c5BDPayload ≠ []) ∧
      BDTailEvent.browserClosed ∈
        (fetch_block_deals_tail (some c5BDPayload) ("bd.txt")).1)) :=
  ⟨by decide,
   c5_persist_amended (some c5ValidPayload) ("bm.txt") (by decide)
     c5BDPayload ("bd.txt")⟩

/-! ## rsi_high.py: scan_stocks (lines 44-64) and send_email (lines 122-131) -/

/-- A scalar on the right-hand side of a TradingView filter condition. -/
inductive FilterRight where
  | boolVal (b : Bool)
  | natVal (n : Nat)
deriving DecidableEq

/-- One condition of the scan request's "filter" list. -/
structure FilterCond where
  left : String
  operation : String
  right : FilterRight
deriving DecidableEq

/-- The "filter" entry of the payload built in `scan_stocks`. -/
def scan_stocks_filter : List FilterCond :=
  [⟨"is_blacklisted", "equal", FilterRight.boolVal false⟩,
   ⟨"RSI", "greater", FilterRight.natVal 82⟩]

/-- Fixed fragments of the success-branch email body of `send_email`; the
f-string is their concatenation around the interpolated values. -/
def rsiBodyStart : String :=
  "Dear Recipient,\n\nAttached is the CSV file containing "

/-- The fragment between the stock count and the date. -/
def rsiBodyMid : String := " stocks with RSI < 30 for "

/-- The fragment after the date. -/
def rsiBodyEnd : String :=
  ".\nPlease review the attachment for details.\n\nBest regards,\nAutomated Data Service\n"

/-- The success-branch email body of `send_email`. -/
def send_email_success_body (stock_count : Nat) (date_str : String) : String :=
  rsiBodyStart ++ toString stock_count ++ rsiBodyMid ++ date_str ++ rsiBodyEnd

/-- C8: the filter actually sent in every scan request is RSI strictly
greater than 82 — no condition uses the operation "less" — while the
user-facing email body describes the result as stocks with RSI < 30. -/
theorem c8_rsi_filter_mismatch (stock_count : Nat) (date_str : String) :
    (FilterCond.mk ("RSI") ("greater") (FilterRight.natVal 82)) ∈
      scan_stocks_filter ∧
    scan_stocks_filter.all
      (fun c => !(c.left == "RSI") ||
        (c.operation == "greater" && c.right == FilterRight.natVal 82)) = true ∧
    scan_stocks_filter.all (fun c => !(c.operation == "less")) = true ∧
    send_email_success_body stock_count date_str =
      rsiBodyStart ++ toString stock_count ++ rsiBodyMid ++ date_str ++
        rsiBodyEnd ∧
    strContains rsiBodyMid ("RSI < 30") = true := by
  refine ⟨by decide, by decide, by decide, rfl, by decide⟩

/-! ## datetime.strptime for "%d-%b-%Y %H:%M:%S" and "%d-%b-%Y"

CPython's `_strptime` compiles each directive to a regex: `%d` matches one
or two digits with value 1..31, `%b` matches a three-letter English month
abbreviation case-insensitively, `%Y` matches exactly four digits, `%H`
one or two digits with value 0..23, `%M`/`%S` one or two digits with value
0..59; literal whitespace in the format matches a run of whitespace; the
whole input must be consumed; finally the `datetime` constructor checks the
day against the month length (rejecting e.g. 31-Feb) and requires year ≥ 1. -/

/-- Numeric value of a decimal digit character. -/
def digitVal (c : Char) : Nat := c.toNat - 48

/-- Split a leading run of decimal digits from the rest. -/
def splitDigits : List Char → List Char × List Char
  | [] => ([], [])
  | c :: cs =>
    if c.isDigit then
      let acc := splitDigits cs
      (c :: acc.1, acc.2)
    else ([], c :: cs)

/-- Value of a digit run. -/
def digitsToNat (ds : List Char) : Nat :=
  ds.foldl (fun a c => 10 * a + digitVal c) 0

/-- `%d`: one digit 1..9 or two digits with value 1..31.  (A longer digit
run fails: the regex alternative taking fewer digits leaves a digit where
the format expects a literal.) -/
def parseDay (cs : List Char) : Option (Nat × List Char) :=
  let p := splitDigits cs
  let v := digitsToNat p.1
  match p.1 with
  | [_] => if 1 ≤ v then some (v, p.2) else none
  | [_, _] => if 1 ≤ v && v ≤ 31 then some (v, p.2) else none
  | _ => none

/-- `%H`: one digit, or two digits with value 0..23. -/
def parseHour (cs : List Char) : Option (Nat × List Char) :=
  let p := splitDigits cs
  let v := digitsToNat p.1
  match p.1 with
  | [_] => some (v, p.2)
  | [_, _] => if v ≤ 23 then some (v, p.2) else none
  | _ => none

/-- `%M` and `%S`: one digit, or two digits with value 0..59. -/
def parseSixty (cs : List Char) : Option (Nat × List Char) :=
  let p := splitDigits cs
  let v := digitsToNat p.1
  match p.1 with
  | [_] => some (v, p.2)
  | [_, _] => if v ≤ 59 then some (v, p.2) else none
  | _ => none

/-- `%Y`: exactly four digits; the datetime constructor requires year ≥ 1. -/
def parseYear (cs : List Char) : Option (Nat × List Char) :=
  let p := splitDigits cs
  let v := digitsToNat p.1
  match p.1 with
  | [_, _, _, _] => if 1 ≤ v then some (v, p.2) else none
  | _ => none

/-- A literal character of the format. -/
def expectChar (c : Char) : List Char → Option (List Char)
  | [] => none
  | x :: xs => if x == c then some xs else none

/-- `%b`: month number of a three-letter abbreviation, case-insensitive. -/
def monthNum (a : Char) (b : Char) (c : Char) : Option Nat :=
  match a.toLower, b.toLower, c.toLower with
  | 'j', 'a', 'n' => some 1
  | 'f', 'e', 'b' => some 2
  | 'm', 'a', 'r' => some 3
  | 'a', 'p', 'r' => some 4
  | 'm', 'a', 'y' => some 5
  | 'j', 'u', 'n' => some 6
  | 'j', 'u', 'l' => some 7
  | 'a', 'u', 'g' => some 8
  | 's', 'e', 'p' => some 9
  | 'o', 'c', 't' => some 10
  | 'n', 'o', 'v' => some 11
  | 'd', 'e', 'c' => some 12
  | _, _, _ => none

/-- `%b` on the input stream. -/
def parseMonthAbbrev : List Char → Option (Nat × List Char)
  | a :: b :: c :: rest =>
    match monthNum a b c with
    | some m => some (m, rest)
    | none => none
  | _ => none

/-- Gregorian leap year. -/
def isLeapYear (y : Nat) : Bool :=
  y % 4 == 0 && (y % 100 != 0 || y % 400 == 0)

/-- Number of days of month `m` in year `y`. -/
def daysInMonth (y : Nat) (m : Nat) : Nat :=
  if m == 2 then (if isLeapYear y then 29 else 28)
  else if m == 4 || m == 6 || m == 9 || m == 11 then 30
  else 31

/-- The date part `%d-%b-%Y`, including the constructor's day-of-month
check; yields (day, month, year) and the unconsumed rest. -/
def parseDatePart (cs : List Char) : Option ((Nat × Nat × Nat) × List Char) := do
  let (d, r1) ← parseDay cs
  let r2 ← expectChar ('-') r1
  let (m, r3) ← parseMonthAbbrev r2
  let r4 ← expectChar ('-') r3
  let (y, r5) ← parseYear r4
  if d ≤ daysInMonth y m then some ((d, m, y), r5) else none

/-- Drop a leading whitespace run. -/
def dropLeadingWs : List Char → List Char
  | [] => []
  | c :: cs => if c.isWhitespace then dropLeadingWs cs else c :: cs

/-- Literal whitespace in the format: one or more whitespace characters. -/
def skipWsAtLeastOne : List Char → Option (List Char)
  | [] => none
  | c :: cs => if c.isWhitespace then some (dropLeadingWs cs) else none

/-- The time part `%H:%M:%S` (values checked, then discarded). -/
def parseTimePart (cs : List Char) : Option (List Char) := do
  let (_, r1) ← parseHour cs
  let r2 ← expectChar (':') r1
  let (_, r3) ← parseSixty r2
  let r4 ← expectChar (':') r3
  let (_, r5) ← parseSixty r4
  some r5

/-- `datetime.strptime(s, "%d-%b-%Y %H:%M:%S")`, as the (day, month, year)
triple; `none` models the ValueError. -/
def parseFormatA (s : String) : Option (Nat × Nat × Nat) := do
  let (dmy, r1) ← parseDatePart s.data
  let r2 ← skipWsAtLeastOne r1
  let r3 ← parseTimePart r2
  match r3 with
  | [] => some dmy
  | _ => none

/-- `datetime.strptime(s, "%d-%b-%Y")`, as the (day, month, year) triple. -/
def parseFormatB (s : String) : Option (Nat × Nat × Nat) := do
  let (dmy, r1) ← parseDatePart s.data
  match r1 with
  | [] => some dmy
  | _ => none

/-- Two-digit zero-padded decimal. -/
def pad2 (n : Nat) : String :=
  if n < 10 then "0" ++ toString n else toString n

/-- Four-digit zero-padded decimal. -/
def pad4 (n : Nat) : String :=
  if n < 10 then "000" ++ toString n
  else if n < 100 then "00" ++ toString n
  else if n < 1000 then "0" ++ toString n
  else toString n

/-- `.strftime("%d-%m-%Y")`. -/
def formatDMY : Nat × Nat × Nat → String
  | (d, m, y) => pad2 d ++ "-" ++ pad2 m ++ "-" ++ pad4 y

/-! ## mobil_tric.py: fetch_press_release_data (lines 33-56) -/

/-- The date simplification of `fetch_press_release_data`: try format A
(`%d-%b-%Y %H:%M:%S`), fall back to format B (`%d-%b-%Y`), and keep the
original string when both fail. -/
def simplifyDate (s : String) : String :=
  match parseFormatA s with
  | some dmy => formatDMY dmy
  | none =>
    match parseFormatB s with
    | some dmy => formatDMY dmy
    | none => s

/-- One raw press-release entry of the mobil_tric feed, observed through
`entry.get(key, default)`. -/
structure MTEntry where
  date : Option String
  title : Option String
  description : Option String
  category : Option String
  link : Option String
  time : Option String
deriving DecidableEq

/-- The per-entry record appended to its date bucket. -/
structure MTRelease where
  title : String
  description : String
  category : String
  link : String
  time : String
deriving DecidableEq

/-- The `press_release = {...}` literal: `entry.get(key, "N/A")`. -/
def mkMTRelease (e : MTEntry) : MTRelease where
  title := e.title.getD ("N/A")
  description := e.description.getD ("N/A")
  category := e.category.getD ("N/A")
  link := e.link.getD ("N/A")
  time := e.time.getD ("N/A")

/-- The bucket key: `entry.get("date", "Unknown Date")` then simplified. -/
def mtDateKey (e : MTEntry) : String :=
  simplifyDate (e.date.getD ("Unknown Date"))

/-- Append `v` to the bucket of key `k` of an insertion-ordered dict,
creating the bucket at the end when absent. -/
def insertGrouped (k : String) (v : MTRelease) :
    List (String × List MTRelease) → List (String × List MTRelease)
  | [] => [(k, [v])]
  | (k2, vs) :: rest =>
    if k == k2 then (k2, vs ++ [v]) :: rest
    else (k2, vs) :: insertGrouped k v rest

/-- The `for entry in response` grouping loop. -/
def groupEntries (entries : List MTEntry) : List (String × List MTRelease) :=
  entries.foldl (fun acc e => insertGrouped (mtDateKey e) (mkMTRelease e) acc) []

/-- Stable insertion for `dict(sorted(structured_data.items()))`: keys are
unique, compared lexicographically. -/
def insertByKey (p : String × List MTRelease) :
    List (String × List MTRelease) → List (String × List MTRelease)
  | [] => [p]
  | q :: qs => if p.1 ≤ q.1 then p :: q :: qs else q :: insertByKey p qs

/-- `dict(sorted(structured_data.items()))`. -/
def sortByKey (l : List (String × List MTRelease)) :
    List (String × List MTRelease) :=
  l.foldr insertByKey []

/-- Stable insertion for the per-date `sorted(..., key=lambda x: x["title"])`. -/
def insertByTitle (x : MTRelease) : List MTRelease → List MTRelease
  | [] => [x]
  | y :: ys => if x.title ≤ y.title then x :: y :: ys else y :: insertByTitle x ys

/-- Sort each date bucket by title. -/
def sortGroupValues (l : List (String × List MTRelease)) :
    List (String × List MTRelease) :=
  l.map (fun p => (p.1, p.2.foldr insertByTitle []))

/-- The whole structuring phase of `fetch_press_release_data`: group by
simplified date, sort the dict by key, sort each bucket by title. -/
def structurePressReleases (entries : List MTEntry) :
    List (String × List MTRelease) :=
  sortGroupValues (sortByKey (groupEntries entries))

/-- Total number of records held by a grouped structure. -/
def groupTotal (l : List (String × List MTRelease)) : Nat :=
  (l.map (fun p => p.2.length)).sum

theorem insertGrouped_total (k : String) (v : MTRelease)
    (l : List (String × List MTRelease)) :
    groupTotal (insertGrouped k v l) = groupTotal l + 1 := by
  induction l with
  | nil => simp [insertGrouped, groupTotal]
  | cons q qs ih =>
    rcases q with ⟨k2, vs⟩
    by_cases h : (k == k2) = true <;>
      simp [insertGrouped, h, groupTotal] at ih ⊢ <;> omega

theorem groupEntries_total_aux (entries : List MTEntry)
    (acc : List (String × List MTRelease)) :
    groupTotal (entries.foldl
      (fun a e => insertGrouped (mtDateKey e) (mkMTRelease e) a) acc) =
      groupTotal acc + entries.length := by
  induction entries generalizing acc with
  | nil => simp
  | cons e es ih =>
    simp only [List.foldl_cons, List.length_cons, ih, insertGrouped_total]
    omega

theorem insertByKey_total (p : String × List MTRelease)
    (l : List (String × List MTRelease)) :
    groupTotal (insertByKey p l) = p.2.length + groupTotal l := by
  induction l with
  | nil => simp [insertByKey, groupTotal]
  | cons q qs ih =>
    by_cases h : p.1 ≤ q.1
    · simp [insertByKey, h, groupTotal]
    · simp [insertByKey, h, groupTotal] at ih ⊢
      omega

theorem sortByKey_total (l : List (String × List MTRelease)) :
    groupTotal (sortByKey l) = groupTotal l := by
  induction l with
  | nil => rfl
  | cons q qs ih =>
    simp only [sortByKey, List.foldr_cons] at ih ⊢
    rw [insertByKey_total]
    simp [groupTotal] at ih ⊢
    omega

theorem insertByTitle_length (x : MTRelease) (l : List MTRelease) :
    (insertByTitle x l).length = l.length + 1 := by
  induction l with
  | nil => rfl
  | cons y ys ih =>
    by_cases h : x.title ≤ y.title <;> simp [insertByTitle, h, ih]

theorem sortTitles_length (l : List MTRelease) :
    (l.foldr insertByTitle []).length = l.length := by
  induction l with
  | nil => rfl
  | cons y ys ih => simp [List.foldr_cons, insertByTitle_length, ih]

theorem sortGroupValues_total (l : List (String × List MTRelease)) :
    groupTotal (sortGroupValues l) = groupTotal l := by
  induction l with
  | nil => rfl
  | cons q qs ih => simp [sortGroupValues, groupTotal, sortTitles_length] at ih ⊢; omega

theorem structurePressReleases_total (entries : List MTEntry) :
    groupTotal (structurePressReleases entries) = entries.length := by
  rw [structurePressReleases, sortGroupValues_total, sortByKey_total,
    groupEntries, groupEntries_total_aux]
  simp [groupTotal]

/-- C6: date normalization tries `%d-%b-%Y %H:%M:%S` then `%d-%b-%Y` and
keeps the original string when both fail: "16-Apr-2025 10:30:00" and
"16-Apr-2025" both normalize to "16-04-2025", a string matching neither
format keeps its original date string, and no record is ever dropped by the
structuring loop (the total record count is preserved). -/
theorem c6_date_format_fallback (s : String)
    (hA : parseFormatA s = none) (hB : parseFormatB s = none) :
    simplifyDate ("16-Apr-2025 10:30:00") = "16-04-2025" ∧
    simplifyDate ("16-Apr-2025") = "16-04-2025" ∧
    simplifyDate s = s ∧
    (∀ entries : List MTEntry,
      groupTotal (structurePressReleases entries) = entries.length) :=
  ⟨by decide, by decide, by simp [simplifyDate, hA, hB],
   structurePressReleases_total⟩

/-- Witness for C6 at the unparseable string "sometime next week". -/
theorem c6_date_format_fallback_witness :
    parseFormatA ("sometime next week") = none ∧
    parseFormatB ("sometime next week") = none ∧
    simplifyDate ("sometime next week") = "sometime next week" :=
  ⟨by decide, by decide,
   (c6_date_format_fallback ("sometime next week") (by decide)
      (by decide)).2.2.1⟩

/-! ## press_release.py: clean_html (lines 12-22) and simplify_press_release (lines 24-50) -/

/-- Drop `<...>` tag spans, leaving one space per removed tag (the
`get_text(separator=' ')` separator); the flag records being inside a tag. -/
def stripTags : List Char → Bool → List Char
  | [], _ => []
  | c :: cs, false =>
    if c == '<' then stripTags cs true else c :: stripTags cs false
  | c :: cs, true =>
    if c == '>' then ' ' :: stripTags cs false else stripTags cs true

/-- `' '.join(text.split())`: collapse whitespace runs (this also strips). -/
def collapseWhitespace (s : String) : String :=
  String.intercalate (" ")
    ((s.split (fun c => c.isWhitespace)).filter (fun t => !(t == "")))

/-- `clean_html(text)`: strip HTML tags and normalize whitespace. -/
def clean_html (text : String) : String :=
  collapseWhitespace (String.mk (stripTags text.data false))

/-- `{'content': {'name': ...}}` inside a category list element. -/
structure PRCatName where
  name : String
deriving DecidableEq

/-- One element of `field_category_press`. -/
structure PRCatEntry where
  content : PRCatName
deriving DecidableEq

/-- `field_file_attachement`: a dict whose `url` key may be absent. -/
structure PRAttach where
  url : Option String
deriving DecidableEq

/-- The `content` dict of one press-release item, observed through
`content.get(key, default)`. -/
structure PRContent where
  title : Option String
  field_date : Option String
  body : Option String
  field_file_attachement : Option PRAttach
  field_category_press : Option (List PRCatEntry)
  field_type : Option String
deriving DecidableEq

/-- One raw press-release item: `item.get('content', {})`. -/
structure PRItem where
  content : Option PRContent
deriving DecidableEq

/-- One simplified press-release record. -/
structure PRSimple where
  title : String
  date : String
  body : String
  attachment_url : String
  category : String
deriving DecidableEq

/-- `category[0]['content']['name']` when `field_category_press` is a
non-empty list, else `content.get('field_type', 'Unknown')`. -/
def prCategoryName (c : PRContent) : String :=
  match c.field_category_press with
  | some (e :: _) => e.content.name
  | _ => c.field_type.getD ("Unknown")

/-- `content.get('field_file_attachement', {}).get('url', '')`. -/
def prAttachmentUrl (c : PRContent) : String :=
  match c.field_file_attachement with
  | some a => a.url.getD ("")
  | none => ""

/-- The dict appended per item by `simplify_press_release`. -/
def mkPRSimple (item : PRItem) : PRSimple :=
  match item.content with
  | some c =>
    ⟨c.title.getD (""), c.field_date.getD (""), clean_html (c.body.getD ("")),
      prAttachmentUrl c, prCategoryName c⟩
  | none => ⟨"", "", clean_html (""), "", "Unknown"⟩

/-- Comparable encoding of a parsed (day, month, year). -/
def dateKeyNum : Nat × Nat × Nat → Nat
  | (d, m, y) => y * 512 + m * 32 + d

/-- The sort key `datetime.strptime(x['date'], '%d-%b-%Y')` (only consulted
once every record's date is known to parse). -/
def prSortKey (x : PRSimple) : Nat :=
  match parseFormatB x.date with
  | some dmy => dateKeyNum dmy
  | none => 0

/-- Stable descending insertion for `sorted(..., reverse=True)`. -/
def insertDescByKey (x : PRSimple) : List PRSimple → List PRSimple
  | [] => [x]
  | y :: ys =>
    if prSortKey y ≤ prSortKey x then x :: y :: ys else y :: insertDescByKey x ys

/-- `sorted(simplified, key=..., reverse=True)`. -/
def sortPRDesc (l : List PRSimple) : List PRSimple :=
  l.foldr insertDescByKey []

/-- `simplify_press_release(data)`: build one simplified record per item,
then sort by parsed date.  The `sorted` call evaluates
`datetime.strptime(x['date'], '%d-%b-%Y')` on every record; if any one
raises ValueError the exception reaches the enclosing handler, which
returns the empty list — discarding the whole batch. -/
def simplify_press_release (data : List PRItem) : List PRSimple :=
  let simplified := data.map mkPRSimple
  if simplified.all (fun x => (parseFormatB x.date).isSome) then
    sortPRDesc simplified
  else []

/-- C10: if any single entry's date fails to parse with `%d-%b-%Y`, the
press-release simplifier returns the empty list — the whole batch is
discarded rather than skipping only the offending entry. -/
theorem c10_press_release_batch_discard (data : List PRItem) (x : PRItem)
    (hx : x ∈ data) (hfail : parseFormatB ((mkPRSimple x).date) = none) :
    simplify_press_release data = [] := by
  unfold simplify_press_release
  cases hall : (data.map mkPRSimple).all (fun y => (parseFormatB y.date).isSome) with
  | false => simp [hall]
  | true =>
    exfalso
    have hmem := List.all_eq_true.mp hall (mkPRSimple x)
      (List.mem_map_of_mem mkPRSimple hx)
    rw [hfail] at hmem
    simp at hmem

/-- A press-release item whose date does not match `%d-%b-%Y`. -/
def c10BadItem : PRItem :=
  ⟨some ⟨some ("Quarterly update"), some ("April 16, 2025"), some (""),
    none, none, none⟩⟩

/-- A well-formed press-release item. -/
def c10GoodItem : PRItem :=
  ⟨some ⟨some ("Circular"), some ("15-Apr-2025"), some (""),
    none, none, none⟩⟩

/-- Witness for C10: one bad date among two entries discards the batch. -/
theorem c10_press_release_batch_discard_witness :
    c10BadItem ∈ [c10GoodItem, c10BadItem] ∧
    parseFormatB ((mkPRSimple c10BadItem).date) = none ∧
    simplify_press_release [c10GoodItem, c10BadItem] = [] :=
  ⟨by decide, by decide,
   c10_press_release_batch_discard [c10GoodItem, c10BadItem] c10BadItem
     (by decide) (by decide)⟩

/-! ## bse_notices.py: parse_notices (lines 18-59)

The rendered HTML table is modelled structurally: a row has CSS classes and
cells; a cell has visible text, possibly a first anchor (whose `href`
attribute may be absent — `tag['href']` then raises KeyError), and possibly
a first image input (whose `id` attribute may likewise be absent).  The
`soup.find('table', ...)` lookup is modelled as an optional row list. -/

/-- A first `<a>` inside a cell. -/
structure HtmlAnchor where
  text : String
  href : Option String
deriving DecidableEq

/-- A first `<input type="image">` inside a cell. -/
structure HtmlImageInput where
  id : Option String
deriving DecidableEq

/-- One `<td>`. -/
structure HtmlCell where
  text : String
  anchor : Option HtmlAnchor
  imageInput : Option HtmlImageInput
deriving DecidableEq

/-- One `<tr>`. -/
structure HtmlRow where
  classes : List String
  cells : List HtmlCell
deriving DecidableEq

/-- One parsed BSE notice. -/
structure Notice where
  noticeNo : String
  subject : String
  subjectUrl : String
  segment : String
  category : String
  department : String
  pdfId : String
deriving DecidableEq

/-- A cell placeholder (indexing `cols[i]` is guarded by the length test). -/
def emptyCell : HtmlCell := ⟨"", none, none⟩

/-- `cols[i]`. -/
def cellAt (row : HtmlRow) (i : Nat) : HtmlCell := row.cells.getD i emptyCell

/-- Drop leading whitespace characters. -/
def dropWsHead : List Char → List Char
  | [] => []
  | c :: cs => if c.isWhitespace then dropWsHead cs else c :: cs

/-- Python `str.strip()`: drop whitespace at both ends. -/
def strTrim (s : String) : String :=
  String.mk (List.reverse (dropWsHead (List.reverse (dropWsHead s.data))))

/-- `subject_link.text.strip() if subject_link else ''`. -/
def anchorSubject (c : HtmlCell) : String :=
  match c.anchor with
  | some a => strTrim a.text
  | none => ""

/-- The anchor's href with `''` fallback (total counterpart of
`subject_link['href'] if subject_link else ''`). -/
def anchorHrefD (c : HtmlCell) : String :=
  match c.anchor with
  | some a => a.href.getD ("")
  | none => ""

/-- The image input's id with `''` fallback (total counterpart of
`pdf_input['id'] if pdf_input else ''`). -/
def imageInputIdD (c : HtmlCell) : String :=
  match c.imageInput with
  | some inp => inp.id.getD ("")
  | none => ""

/-- True when reading this cell's anchor href cannot raise KeyError. -/
def cellAnchorSafe (c : HtmlCell) : Bool :=
  match c.anchor with
  | some a => a.href.isSome
  | none => true

/-- True when reading this cell's image-input id cannot raise KeyError. -/
def cellImageSafe (c : HtmlCell) : Bool :=
  match c.imageInput with
  | some inp => inp.id.isSome
  | none => true

/-- No attribute access of this row's processed cells raises. -/
def rowSafe (r : HtmlRow) : Bool :=
  cellAnchorSafe (cellAt r 1) && cellImageSafe (cellAt r 5)

/-- `subject_link.text.strip()` and `subject_link['href']` together;
KeyError when the anchor exists but carries no href. -/
def noticeSubjectPair (c : HtmlCell) : Except PyExn (String × String) :=
  match c.anchor with
  | some a =>
    match a.href with
    | some u => Except.ok (strTrim a.text, u)
    | none => Except.error (PyExn.keyError ("href"))
  | none => Except.ok ("", "")

/-- Relative URLs get the BSE host prepended:
`if subject_url and not subject_url.startswith('http')`. -/
def prefixSubjectUrl (u : String) : String :=
  if !(u == "") && !(charsHavePre ("http").data u.data) then
    "https://www.bseindia.com" ++ u
  else u

/-- `pdf_input['id'] if pdf_input else ''`; KeyError when the input exists
but carries no id. -/
def noticePdfId (c : HtmlCell) : Except PyExn String :=
  match c.imageInput with
  | some inp =>
    match inp.id with
    | some i => Except.ok i
    | none => Except.error (PyExn.keyError ("id"))
  | none => Except.ok ""

/-- The body of the `if len(cols) >= 6` branch: build one notice from the
first six cells. -/
def noticeOfRow (row : HtmlRow) : Except PyExn Notice :=
  match noticeSubjectPair (cellAt row 1) with
  | Except.error e => Except.error e
  | Except.ok sp =>
    match noticePdfId (cellAt row 5) with
    | Except.error e => Except.error e
    | Except.ok pid =>
      Except.ok
        ⟨strTrim (cellAt row 0).text, sp.1, prefixSubjectUrl sp.2,
          strTrim (cellAt row 2).text, strTrim (cellAt row 3).text,
          strTrim (cellAt row 4).text, pid⟩

/-- The `for row in rows` loop: skip pagination rows (`'pgr' in class`),
skip rows with fewer than six cells, append a notice for the rest; an
exception aborts the loop and propagates. -/
def processRows : List HtmlRow → Except PyExn (List Notice)
  | [] => Except.ok []
  | row :: rest =>
    if row.classes.contains ("pgr") then processRows rest
    else if 6 ≤ row.cells.length then
      match noticeOfRow row with
      | Except.error e => Except.error e
      | Except.ok n =>
        match processRows rest with
        | Except.error e => Except.error e
        | Except.ok ns => Except.ok (n :: ns)
    else processRows rest

/-- `str(e)` of the modelled exceptions. -/
def pyExnMessage : PyExn → String
  | PyExn.unboundLocal v =>
    "local variable '" ++ v ++ "' referenced before assignment"
  | PyExn.keyError k => "'" ++ k ++ "'"

/-- `parse_notices(html_content)`: `none` models a page without the notices
table; otherwise the header row is dropped (`find_all('tr')[1:]`) and the
row loop runs under the enclosing try/except, which turns any exception
into an empty result.  Returns the notices and the log lines. -/
def parse_notices (tableRows : Option (List HtmlRow)) :
    List Notice × List String :=
  match tableRows with
  | none => ([], ["Notices table not found in HTML."])
  | some rows =>
    match processRows (rows.drop 1) with
    | Except.ok notices =>
      let n := notices.length
      (notices, ["Parsed " ++ toString n ++ " notices."])
    | Except.error e =>
      ([], ["Failed to parse notices: " ++ pyExnMessage e])

/-- A row survives the loop's two skip tests. -/
def keepRow (r : HtmlRow) : Bool :=
  !(r.classes.contains ("pgr")) && decide (6 ≤ r.cells.length)

/-- The notice a kept row yields when no KeyError occurs. -/
def noticeValue (row : HtmlRow) : Notice :=
  ⟨strTrim (cellAt row 0).text, anchorSubject (cellAt row 1),
   prefixSubjectUrl (anchorHrefD (cellAt row 1)),
   strTrim (cellAt row 2).text, strTrim (cellAt row 3).text,
   strTrim (cellAt row 4).text, imageInputIdD (cellAt row 5)⟩

theorem noticeSubjectPair_ok_eq (c : HtmlCell) (sp : String × String)
    (h : noticeSubjectPair c = Except.ok sp) :
    sp = (anchorSubject c, anchorHrefD c) := by
  unfold noticeSubjectPair at h
  cases hA : c.anchor with
  | none => simp [hA] at h; simp [anchorSubject, anchorHrefD, hA, h]
  | some a =>
    cases hH : a.href with
    | none => simp [hA, hH] at h
    | some u =>
      simp [hA, hH] at h
      simp [anchorSubject, anchorHrefD, hA, hH, h]

theorem noticePdfId_ok_eq (c : HtmlCell) (pid : String)
    (h : noticePdfId c = Except.ok pid) : pid = imageInputIdD c := by
  unfold noticePdfId at h
  cases hA : c.imageInput with
  | none => simp [hA] at h; simp [imageInputIdD, hA, h]
  | some inp =>
    cases hI : inp.id with
    | none => simp [hA, hI] at h
    | some i =>
      simp [hA, hI] at h
      simp [imageInputIdD, hA, hI, h]

theorem noticeOfRow_ok_eq (row : HtmlRow) (n : Notice)
    (h : noticeOfRow row = Except.ok n) : n = noticeValue row := by
  unfold noticeOfRow at h
  rcases hsp : noticeSubjectPair (cellAt row 1) with e | sp <;> rw [hsp] at h
  · cases h
  · rcases hp : noticePdfId (cellAt row 5) with e | pid <;> rw [hp] at h
    · cases h
    · cases h
      rw [noticeSubjectPair_ok_eq _ _ hsp, noticePdfId_ok_eq _ _ hp]
      rfl

theorem noticeSubjectPair_safe (c : HtmlCell) (h : cellAnchorSafe c = true) :
    noticeSubjectPair c = Except.ok (anchorSubject c, anchorHrefD c) := by
  unfold cellAnchorSafe at h
  cases hA : c.anchor with
  | none => simp [noticeSubjectPair, anchorSubject, anchorHrefD, hA]
  | some a =>
    simp [hA] at h
    cases hH : a.href with
    | none => rw [hH] at h; simp at h
    | some u => simp [noticeSubjectPair, anchorSubject, anchorHrefD, hA, hH]

theorem noticePdfId_safe (c : HtmlCell) (h : cellImageSafe c = true) :
    noticePdfId c = Except.ok (imageInputIdD c) := by
  unfold cellImageSafe at h
  cases hA : c.imageInput with
  | none => simp [noticePdfId, imageInputIdD, hA]
  | some inp =>
    simp [hA] at h
    cases hI : inp.id with
    | none => rw [hI] at h; simp at h
    | some i => simp [noticePdfId, imageInputIdD, hA, hI]

theorem noticeOfRow_safe (row : HtmlRow) (h : rowSafe row = true) :
    noticeOfRow row = Except.ok (noticeValue row) := by
  unfold rowSafe at h
  rw [Bool.and_eq_true] at h
  unfold noticeOfRow
  rw [noticeSubjectPair_safe _ h.1, noticePdfId_safe _ h.2]
  rfl

theorem processRows_ok_eq (rows : List HtmlRow) (ns : List Notice)
    (h : processRows rows = Except.ok ns) :
    ns = (rows.filter keepRow).map noticeValue := by
  induction rows generalizing ns with
  | nil =>
    cases h
    rfl
  | cons row rest ih =>
    unfold processRows at h
    by_cases hp : row.classes.contains ("pgr") = true
    · have hk : keepRow row = false := by
        unfold keepRow
        rw [hp]
        rfl
      rw [if_pos hp] at h
      simp [List.filter_cons, hk, ih ns h]
    · rw [if_neg hp] at h
      by_cases hl : 6 ≤ row.cells.length
      · have hp2 : row.classes.contains ("pgr") = false := by
          cases hc : row.classes.contains ("pgr")
          · rfl
          · exact absurd hc hp
        have hk : keepRow row = true := by
          unfold keepRow
          rw [hp2]
          simp [hl]
        rw [if_pos hl] at h
        rcases hn : noticeOfRow row with e | n <;> rw [hn] at h
        · cases h
        · rcases hr : processRows rest with e | ns2 <;> rw [hr] at h
          · cases h
          · cases h
            simp [List.filter_cons, hk, noticeOfRow_ok_eq _ _ hn, ih ns2 hr]
      · have hk : keepRow row = false := by
          unfold keepRow
          have hd : decide (6 ≤ row.cells.length) = false := by simp [hl]
          rw [hd]
          simp
        rw [if_neg hl] at h
        simp [List.filter_cons, hk, ih ns h]

theorem processRows_safe (rows : List HtmlRow)
    (h : ∀ r ∈ rows, rowSafe r = true) :
    processRows rows = Except.ok ((rows.filter keepRow).map noticeValue) := by
  induction rows with
  | nil => rfl
  | cons row rest ih =>
    have hrow := h row (List.mem_cons_self row rest)
    have hrest := ih (fun r hr => h r (List.mem_cons_of_mem row hr))
    unfold processRows
    by_cases hp : row.classes.contains ("pgr") = true
    · have hk : keepRow row = false := by
        unfold keepRow
        rw [hp]
        rfl
      rw [if_pos hp, hrest]
      simp [List.filter_cons, hk]
    · rw [if_neg hp]
      by_cases hl : 6 ≤ row.cells.length
      · have hp2 : row.classes.contains ("pgr") = false := by
          cases hc : row.classes.contains ("pgr")
          · rfl
          · exact absurd hc hp
        have hk : keepRow row = true := by
          unfold keepRow
          rw [hp2]
          simp [hl]
        rw [if_pos hl, noticeOfRow_safe row hrow, hrest]
        simp [List.filter_cons, hk]
      · have hk : keepRow row = false := by
          unfold keepRow
          have hd : decide (6 ≤ row.cells.length) = false := by simp [hl]
          rw [hd]
          simp
        rw [if_neg hl, hrest]
        simp [List.filter_cons, hk]

/-- Number of rows the loop skips for failing the column-count test
(non-header, non-pagination rows with fewer than six cells). -/
def skippedShortRowCount (rows : List HtmlRow) : Nat :=
  ((rows.drop 1).filter
    (fun r => !(r.classes.contains ("pgr")) && decide (r.cells.length < 6))).length

/-- The header row of the concrete example table. -/
def c7wHeaderRow : HtmlRow := ⟨[], []⟩

/-- A pagination row. -/
def c7wPgrRow : HtmlRow := ⟨["pgr"], [⟨"1 2 3", none, none⟩]⟩

/-- A plain text cell. -/
def c7wCellPlain : HtmlCell := ⟨"Equity", none, none⟩

/-- A subject cell with an anchor carrying an href. -/
def c7wCellSubject : HtmlCell :=
  ⟨"", some ⟨"Listing notice", some ("/markets/notice1.html")⟩, none⟩

/-- A PDF cell with an image input carrying an id. -/
def c7wCellPdf : HtmlCell := ⟨"", none, some ⟨some ("pdfbtn1")⟩⟩

/-- A well-formed six-column row. -/
def c7wGoodRow : HtmlRow :=
  ⟨[], [c7wCellPlain, c7wCellSubject, c7wCellPlain, c7wCellPlain,
    c7wCellPlain, c7wCellPdf]⟩

/-- A row with fewer than six columns. -/
def c7wShortRow : HtmlRow := ⟨[], [c7wCellPlain]⟩

/-- Counterexample for C7 as stated: adding a short row changes the number
of column-count skips but leaves the extractor's entire output — the notice
list and every log line — unchanged, so the skipped rows are not counted
anywhere observable. -/
theorem c7_counterexample_skips_not_counted :
    parse_notices (some [c7wHeaderRow, c7wGoodRow]) =
      parse_notices (some [c7wHeaderRow, c7wShortRow, c7wGoodRow]) ∧
    skippedShortRowCount [c7wHeaderRow, c7wGoodRow] ≠
      skippedShortRowCount [c7wHeaderRow, c7wShortRow, c7wGoodRow] :=
  ⟨by decide, by decide⟩

/-- C7 (amended): the extractor drops the header row and excludes every
pagination-tagged row and every row with fewer than six columns — when no
attribute access raises an internal KeyError the output is exactly the kept
rows, in order, and on any internal error it is the empty list (the skips
are silent and uncounted; no exception escapes the extractor). -/
theorem c7_html_row_filtering_amended (tbl : Option (List HtmlRow))
    (h : ∀ r ∈ (tbl.getD []).drop 1, rowSafe r = true) :
    (parse_notices tbl).1 =
      (((tbl.getD []).drop 1).filter keepRow).map noticeValue ∧
    (∀ t2 : Option (List HtmlRow),
      (parse_notices t2).1 =
          (((t2.getD []).drop 1).filter keepRow).map noticeValue ∨
        (parse_notices t2).1 = []) := by
  constructor
  · cases tbl with
    | none => simp [parse_notices]
    | some rows =>
      have hsafe := processRows_safe (rows.drop 1) (by simpa using h)
      simp only [parse_notices, Option.getD_some]
      rw [hsafe]
  · intro t2
    cases t2 with
    | none =>
      right
      simp [parse_notices]
    | some rows2 =>
      cases hpr : processRows (rows2.drop 1) with
      | error e =>
        right
        simp only [parse_notices, Option.getD_some]
        rw [hpr]
      | ok ns =>
        left
        simp only [parse_notices, Option.getD_some]
        rw [hpr]
        exact processRows_ok_eq _ _ hpr

/-- The example table: header, pagination row, short row, one good row. -/
def c7wTable : Option (List HtmlRow) :=
  some [c7wHeaderRow, c7wPgrRow, c7wShortRow, c7wGoodRow]

/-- Witness for C7 (amended) on the example table: only the good row
survives. -/
theorem c7_html_row_filtering_amended_witness :
    ((c7wTable.getD []).drop 1).all rowSafe = true ∧
    (parse_notices c7wTable).1 =
      (((c7wTable.getD []).drop 1).filter keepRow).map noticeValue :=
  ⟨by decide, (c7_html_row_filtering_amended c7wTable (by decide)).1⟩
